import Mathlib

/-!
Shallow embedding of `src/bytecode.rs` from the orion repository: the
bytecode container format and its serializer.  Byte buffers (`Vec<u8>`)
are modelled as `List Nat` whose elements are intended to lie below 256;
every Rust narrowing cast (`as u8`, `as u16`, `as u32`) is rendered as an
explicit `% 2 ^ w` at the point where the source performs it.  The
imperative buffer construction (`to_ret.push` / `to_ret.extend` inside
`for_each`) is rendered as left folds carrying the accumulated buffer.
-/

namespace Orion

/-- One byte of a Rust `char` cast `as u8`: the code point truncated mod 256. -/
def charByte (c : Char) : Nat := c.toNat % 256

/-- `u16::to_be_bytes`, applied to a value narrowed `as u16`: two big-endian
bytes of `x % 2 ^ 16`. -/
def u16be (x : Nat) : List Nat := [x / 256 % 256, x % 256]

/-- `u32::to_be_bytes`, applied to a value narrowed `as u32`: four big-endian
bytes of `x % 2 ^ 32`. -/
def u32be (x : Nat) : List Nat :=
  [x / 2 ^ 24 % 256, x / 2 ^ 16 % 256, x / 2 ^ 8 % 256, x % 256]

/-- `u64::to_be_bytes`: eight big-endian bytes of `x % 2 ^ 64`. -/
def u64be (x : Nat) : List Nat :=
  [x / 2 ^ 56 % 256, x / 2 ^ 48 % 256, x / 2 ^ 40 % 256, x / 2 ^ 32 % 256,
   x / 2 ^ 24 % 256, x / 2 ^ 16 % 256, x / 2 ^ 8 % 256, x % 256]

/-- `i64::to_be_bytes`: the eight big-endian bytes of the two's-complement
(unsigned) representative of `i` modulo `2 ^ 64`. -/
def i64be (i : Int) : List Nat := u64be (i % 2 ^ 64).toNat

/-- Modelled from the spec: `parser::Pattern` (defined in `parser.rs`, which is
not part of the given source) is an externally defined pattern shape; the
serializer never inspects it, so it carries no observable content here. -/
inductive ParserPat where
  | external : ParserPat
deriving DecidableEq, Repr

/-- Modelled from the spec: `parser::Literal` (defined in `parser.rs`, which is
not part of the given source) is a tagged value — `String(text)`,
`Integer(64-bit signed)`, `Single(64-bit float)`.  The serializer observes a
`Single` only through `f64::to_bits`, so the variant carries the IEEE-754 bit
pattern (a `Nat` below `2 ^ 64`) directly. -/
inductive Literal where
  | String : String → Literal
  | Integer : Int → Literal
  | Single : Nat → Literal
deriving DecidableEq, Repr

/-- `enum OpCode` from `bytecode.rs`: eight variants with fixed-arity integer
operands (`u16` operands and, for `Builtin`, two `u8` operands), modelled as
`Nat` with well-formedness bounds in `OpCode.wf`. -/
inductive OpCode where
  | LoadConst : Nat → OpCode
  | LoadSym : Nat → OpCode
  | Call : Nat → OpCode
  | Builtin : Nat → Nat → OpCode
  | Def : Nat → Nat → OpCode
  | Lambda : Nat → OpCode
  | Constructor : Nat → Nat → OpCode
  | Tuple : Nat → OpCode
deriving DecidableEq, Repr

/-- The operand bounds imposed in Rust by the operand types themselves:
`u16` operands are below `2 ^ 16`, `u8` operands below `2 ^ 8`. -/
def OpCode.wf : OpCode → Prop
  | .LoadConst id => id < 65536
  | .LoadSym id => id < 65536
  | .Call argc => argc < 65536
  | .Builtin idx argc => idx < 256 ∧ argc < 256
  | .Def id len => id < 65536 ∧ len < 65536
  | .Lambda id => id < 65536
  | .Constructor idx amount => idx < 65536 ∧ amount < 65536
  | .Tuple amount => amount < 65536

instance (op : OpCode) : Decidable op.wf := by
  cases op <;> simp [OpCode.wf] <;> infer_instance

/-- `OpCode::serialize`: a one-byte variant tag followed by the operands'
big-endian bytes (`vec![tag]` then `extend(&x.to_be_bytes())`; `Builtin`
pushes its two `u8` operands directly). -/
def OpCode.serialize : OpCode → List Nat
  | .LoadConst id => [0] ++ u16be id
  | .LoadSym id => [1] ++ u16be id
  | .Call argc => [2] ++ u16be argc
  | .Builtin idx argc => [3, idx, argc]
  | .Def id len => [4] ++ u16be id ++ u16be len
  | .Lambda id => [5] ++ u16be id
  | .Constructor idx amount => [6] ++ u16be idx ++ u16be amount
  | .Tuple amount => [7] ++ u16be amount

/-- `struct Chunk`: instructions plus captured symbol references (`Vec<u16>`,
modelled as `Nat` below `2 ^ 16`). -/
structure Chunk where
  instructions : List OpCode
  reference : List Nat
deriving DecidableEq, Repr

/-- `struct Pattern` from `bytecode.rs`. -/
structure Pattern where
  pat : ParserPat
  to_exec : List OpCode
deriving DecidableEq, Repr

/-- `struct Match` from `bytecode.rs`. -/
structure Match where
  expression : List OpCode
  patterns : List Pattern
deriving DecidableEq, Repr

/-- `struct Bytecode`: the root aggregate. `constructors` is a `Vec<u8>` of
raw tag bytes, modelled as `Nat` below 256. -/
structure Bytecode where
  chunks : List Chunk
  «matches» : List Match
  symbols : List String
  constants : List Literal
  instructions : List OpCode
  constructors : List Nat
deriving DecidableEq, Repr

/-- `Bytecode::new()`: every table empty. -/
def Bytecode.new : Bytecode :=
  { chunks := [], symbols := [], constants := [], instructions := [],
    constructors := [], «matches» := [] }

/-- The magic value: `"orion".chars().map(|c| c as u8)`. -/
def magicBytes : List Nat := "orion".data.map charByte

/-- The discriminant byte and payload written for one constant-pool entry
(the two `match c` expressions inside the `constants` loop of
`Bytecode::serialize`): tag 0/1/2 for String/Integer/Single, then the
payload bytes. -/
def constBytes (c : Literal) : List Nat :=
  [match c with
   | .String _ => 0
   | .Integer _ => 1
   | .Single _ => 2] ++
  (match c with
   | .Integer i => i64be i
   | .Single f => u64be f
   | .String s => s.data.map charByte ++ [0])

/-- `Bytecode::serialize`, translated line by line.  `SystemTime::now()
.duration_since(UNIX_EPOCH).unwrap().as_secs()` — the only external input —
is passed in as the parameter `now` (a second count, narrowed `as u32` by
`u32be`).  Each Rust `for_each` appending to `to_ret` becomes a `List.foldl`
carrying the buffer. -/
def Bytecode.serialize (self : Bytecode) (now : Nat) : List Nat :=
  -- Magic value
  let to_ret := magicBytes
  -- Timestamp
  let to_ret := to_ret ++ u32be now
  -- Symbols
  let to_ret := to_ret ++ u16be self.symbols.length
  let to_ret := self.symbols.foldl
    (fun buf sym => buf ++ (sym.data.map charByte ++ [0])) to_ret
  -- Consts
  let to_ret := to_ret ++ u16be self.constants.length
  let to_ret := self.constants.foldl (fun buf c => buf ++ constBytes c) to_ret
  -- Constructors
  let to_ret := to_ret ++ u16be self.constructors.length
  let to_ret := to_ret ++ self.constructors
  -- Chunks
  let to_ret := to_ret ++ u16be self.chunks.length
  let to_ret := self.chunks.foldl
    (fun buf chunk =>
      let buf := buf ++ u16be chunk.reference.length
      let buf := chunk.reference.foldl (fun b link => b ++ u16be link) buf
      let serialized := chunk.instructions.flatMap OpCode.serialize
      buf ++ u16be serialized.length ++ serialized) to_ret
  -- Instructions
  let serialized := self.instructions.flatMap OpCode.serialize
  let to_ret := to_ret ++ u16be serialized.length ++ serialized
  -- Match
  to_ret

/-- The documented instruction layout (spec §4.1): the variant's fixed tag. -/
def opcodeTag : OpCode → Nat
  | .LoadConst _ => 0
  | .LoadSym _ => 1
  | .Call _ => 2
  | .Builtin _ _ => 3
  | .Def _ _ => 4
  | .Lambda _ => 5
  | .Constructor _ _ => 6
  | .Tuple _ => 7

/-- The documented instruction layout (spec §4.1): the variant's operands,
big-endian, in declaration order — 16-bit operands as two bytes, 8-bit
operands as one byte. -/
def opcodeOperandBytes : OpCode → List Nat
  | .LoadConst id => u16be id
  | .LoadSym id => u16be id
  | .Call argc => u16be argc
  | .Builtin idx argc => [idx, argc]
  | .Def id len => u16be id ++ u16be len
  | .Lambda id => u16be id
  | .Constructor idx amount => u16be idx ++ u16be amount
  | .Tuple amount => u16be amount

/-- The documented instruction layout (spec §4.1): tag byte, then operands. -/
def opcodeLayout (op : OpCode) : List Nat := opcodeTag op :: opcodeOperandBytes op

/-- Symbol-table section (spec §4.3 step 3): `count:16`, then each symbol's
bytes followed by a single zero terminator. -/
def symbolSection (syms : List String) : List Nat :=
  u16be syms.length ++ syms.flatMap (fun s => s.data.map charByte ++ [0])

/-- Constant-pool section (spec §4.3 step 4): `count:16`, then each entry's
discriminant byte and payload. -/
def constantSection (cs : List Literal) : List Nat :=
  u16be cs.length ++ cs.flatMap constBytes

/-- Constructor-table section (spec §4.3 step 5): `count:16`, then the raw
tag bytes verbatim. -/
def constructorSection (cs : List Nat) : List Nat :=
  u16be cs.length ++ cs

/-- The bytes one chunk contributes to the chunk table (spec §4.2):
`reference.length:16`, the 16-bit references, then the byte length of the
encoded instructions and those encodings. -/
def chunkBody (c : Chunk) : List Nat :=
  u16be c.reference.length ++ c.reference.flatMap u16be
    ++ u16be (c.instructions.flatMap OpCode.serialize).length
    ++ c.instructions.flatMap OpCode.serialize

/-- Chunk-table section (spec §4.3 step 6): `count:16`, then each chunk. -/
def chunkSection (cs : List Chunk) : List Nat :=
  u16be cs.length ++ cs.flatMap chunkBody

/-- Top-level instruction section (spec §4.3 step 7): `byte_length:16`, then
the concatenated instruction encodings. -/
def instructionSection (ops : List OpCode) : List Nat :=
  u16be (ops.flatMap OpCode.serialize).length ++ ops.flatMap OpCode.serialize

/-- Match-table section (spec §4.3 step 8): declared by the serializer
(`// Match`) but never written — the reserved section is empty. -/
def matchSection : List Nat := []

/-- The serialized stream after the magic value and timestamp: the five
content sections in order. -/
def sectionsTail (b : Bytecode) : List Nat :=
  symbolSection b.symbols ++ constantSection b.constants
    ++ constructorSection b.constructors ++ chunkSection b.chunks
    ++ instructionSection b.instructions ++ matchSection

/-- A container whose symbol table holds 65536 (empty) symbols — one past the
largest count a 16-bit field can hold. -/
def overflowContainer : Bytecode :=
  { Bytecode.new with symbols := List.replicate 65536 "" }

/-- A container whose single symbol is the Euro sign (code point 8364 > 255). -/
def euroSymContainer : Bytecode :=
  { Bytecode.new with symbols := ["€"] }

/-- A container whose single string constant is the Euro sign. -/
def euroConstContainer : Bytecode :=
  { Bytecode.new with constants := [Literal.String "€"] }

/-- A container with symbols `["a\0", "b"]`: the first symbol contains an
embedded NUL character. -/
def nulContainerA : Bytecode :=
  { Bytecode.new with symbols := ["a\x00", "b"] }

/-- A container with symbols `["a", "\0b"]`: the second symbol starts with an
embedded NUL character. -/
def nulContainerB : Bytecode :=
  { Bytecode.new with symbols := ["a", "\x00b"] }

/-- Folding a byte-emitting body over a list appends the concatenation of the
emitted byte runs to the accumulator. -/
theorem foldl_append_eq {α : Type} (f : α → List Nat) (l : List α) (acc : List Nat) :
    l.foldl (fun a x => a ++ f x) acc = acc ++ l.flatMap f := by
  induction l generalizing acc with
  | nil => simp
  | cons x xs ih => simp [ih]

/-- The chunk-table loop of `Bytecode::serialize` appends `chunkBody` for each
chunk in order. -/
theorem chunks_foldl_eq (cs : List Chunk) (acc : List Nat) :
    cs.foldl (fun buf chunk =>
      let buf := buf ++ u16be chunk.reference.length
      let buf := chunk.reference.foldl (fun b link => b ++ u16be link) buf
      let serialized := chunk.instructions.flatMap OpCode.serialize
      buf ++ u16be serialized.length ++ serialized) acc
    = acc ++ cs.flatMap chunkBody := by
  induction cs generalizing acc with
  | nil => simp
  | cons c cs ih =>
    rw [List.foldl_cons, ih, List.flatMap_cons, ← List.append_assoc]
    congr 1
    simp only [chunkBody, foldl_append_eq, List.append_assoc]

/-- `Bytecode::serialize` decomposes into the spec's sections in order. -/
theorem serialize_eq_sections (b : Bytecode) (t : Nat) :
    b.serialize t =
      magicBytes ++ u32be t ++ symbolSection b.symbols ++ constantSection b.constants
        ++ constructorSection b.constructors ++ chunkSection b.chunks
        ++ instructionSection b.instructions ++ matchSection := by
  simp only [Bytecode.serialize]
  rw [foldl_append_eq, foldl_append_eq, chunks_foldl_eq]
  simp only [symbolSection, constantSection, constructorSection, chunkSection,
    instructionSection, matchSection, List.append_assoc, List.append_nil]

/-- The serialized stream is the 9 header bytes followed by the sections. -/
theorem serialize_split (b : Bytecode) (t : Nat) :
    b.serialize t = (magicBytes ++ u32be t) ++ sectionsTail b := by
  rw [serialize_eq_sections]
  simp [sectionsTail, List.append_assoc]

/-- The first five serialized bytes are always the magic value. -/
theorem serialize_take_five (b : Bytecode) (t : Nat) :
    (b.serialize t).take 5 = magicBytes := by
  rw [serialize_split, List.append_assoc,
    (by decide : (5 : Nat) = magicBytes.length)]
  exact List.take_left _ _

/-- Everything after the first nine serialized bytes is the section data,
independent of the timestamp. -/
theorem serialize_drop_nine (b : Bytecode) (t : Nat) :
    (b.serialize t).drop 9 = sectionsTail b := by
  have h9 : (magicBytes ++ u32be t).length = 9 := by
    have h5 : magicBytes.length = 5 := by decide
    simp [u32be, h5]
  rw [serialize_split, ← h9]
  exact List.drop_left _ _

/-- The symbol bytes of `n` empty symbols are `n` terminator bytes. -/
theorem flatMap_replicate_empty (n : Nat) :
    (List.replicate n "").flatMap (fun s => s.data.map charByte ++ [0])
      = List.replicate n 0 := by
  induction n with
  | zero => rfl
  | succ n ih =>
    rw [List.replicate_succ, List.flatMap_cons, ih, List.replicate_succ]
    rfl

/-- C1: `OpCode::serialize` emits exactly one byte sequence per opcode: a
one-byte discriminant tag (LoadConst=0, LoadSym=1, Call=2, Builtin=3, Def=4,
Lambda=5, Constructor=6, Tuple=7) followed by the operands big-endian in
declaration order (16-bit operands as two bytes, 8-bit operands as one byte);
`Builtin(3,2)` encodes to `[3,3,2]`, `LoadConst(300)` to `[0,0x01,0x2C]`,
`Tuple(0)` to `[7,0,0]`, and the encoding is injective on opcodes whose
operands fit their declared widths. -/
theorem opcode_serialize_spec (a : OpCode) (ha : a.wf) :
    a.serialize = opcodeLayout a
    ∧ (∀ b : OpCode, b.wf → b.serialize = a.serialize → b = a)
    ∧ (OpCode.Builtin 3 2).serialize = [3, 3, 2]
    ∧ (OpCode.LoadConst 300).serialize = [0, 0x01, 0x2C]
    ∧ (OpCode.Tuple 0).serialize = [7, 0, 0] := by
  refine ⟨?_, ?_, by decide, by decide, by decide⟩
  · cases a <;> rfl
  · intro b hb heq
    cases a <;> cases b <;>
      simp [OpCode.serialize, OpCode.wf, u16be] at ha hb heq ⊢ <;>
      omega

/-- C1 witness: the layout equation and the `LoadConst(300)` example,
instantiated at the well-formed opcode `LoadConst 300`. -/
theorem opcode_serialize_spec_witness :
    (OpCode.LoadConst 300).serialize = opcodeLayout (OpCode.LoadConst 300)
    ∧ (OpCode.LoadConst 300).serialize = [0, 0x01, 0x2C] := by
  have h := opcode_serialize_spec (OpCode.LoadConst 300) (by decide)
  exact ⟨h.1, h.2.2.2.1⟩

/-- C2: `Bytecode::serialize` emits its sections strictly in the order:
magic value, 4-byte big-endian timestamp, symbol table, constant pool,
constructor table, chunk table, top-level instructions (16-bit byte-length
prefix then concatenated encodings), then the currently unwritten (empty)
match section, with nothing interleaved. -/
theorem container_section_order (b : Bytecode) (t : Nat) :
    b.serialize t =
      magicBytes ++ u32be t ++ symbolSection b.symbols ++ constantSection b.constants
        ++ constructorSection b.constructors ++ chunkSection b.chunks
        ++ instructionSection b.instructions ++ matchSection :=
  serialize_eq_sections b t

/-- C3: the claimed `CapacityExceeded` failure does not exist in the code —
serializing a container with 65536 symbols wraps the 16-bit count to 0 via
the `as u16` narrowing cast and still returns a complete buffer (the header,
the wrapped zero count, 65536 terminator bytes, and the remaining zero
counts). -/
theorem capacity_overflow_wraps :
    overflowContainer.symbols.length = 65536
    ∧ overflowContainer.serialize 0
      = (magicBytes ++ u32be 0)
        ++ ([0, 0] ++ List.replicate 65536 0 ++ [0, 0] ++ [0, 0] ++ [0, 0] ++ [0, 0]) := by
  have h1 : overflowContainer.symbols = List.replicate 65536 "" := rfl
  have h2 : overflowContainer.constants = [] := rfl
  have h3 : overflowContainer.constructors = [] := rfl
  have h4 : overflowContainer.chunks = [] := rfl
  have h5 : overflowContainer.instructions = [] := rfl
  constructor
  · rw [h1, List.length_replicate]
  · rw [serialize_split]
    have e1 : u16be 65536 = [0, 0] := by decide
    have e2 : u16be 0 = [0, 0] := by decide
    have hsec : sectionsTail overflowContainer
        = [0, 0] ++ List.replicate 65536 0 ++ [0, 0] ++ [0, 0] ++ [0, 0] ++ [0, 0] := by
      simp only [sectionsTail, symbolSection, constantSection, constructorSection,
        chunkSection, instructionSection, matchSection, h1, h2, h3, h4, h5,
        flatMap_replicate_empty, List.length_replicate, List.length_nil,
        List.flatMap_nil, List.append_nil, e1, e2, List.append_assoc]
    rw [hsec]

/-- C4: the claimed `UnsupportedCharacter` failure does not exist in the
code — a Euro sign (code point 8364, above the single-byte range) in a symbol
or in a string constant is silently truncated by the `as u8` cast to the
single byte 172, and serialization still returns a complete buffer. -/
theorem unsupported_character_truncates :
    (∃ c, c ∈ "€".data ∧ 255 < c.toNat)
    ∧ euroSymContainer.serialize 0
      = [111, 114, 105, 111, 110, 0, 0, 0, 0, 0, 1, 172, 0, 0, 0, 0, 0, 0, 0, 0, 0]
    ∧ euroConstContainer.serialize 0
      = [111, 114, 105, 111, 110, 0, 0, 0, 0, 0, 0, 0, 1, 0, 172, 0, 0, 0, 0, 0, 0, 0] := by
  exact ⟨⟨'€', by decide, by decide⟩, by decide, by decide⟩

/-- C5: serialization is a deterministic function of the container plus the
clock second: the same second gives byte-identical output, and outputs at any
two seconds agree on everything outside the 4 timestamp bytes (bytes 5..9),
including the total length. -/
theorem serialize_deterministic_mod_time (b : Bytecode) (t1 t2 : Nat)
    (hsame : t1 = t2) :
    b.serialize t1 = b.serialize t2
    ∧ ∀ u1 u2 : Nat,
        (b.serialize u1).take 5 = (b.serialize u2).take 5
        ∧ (b.serialize u1).drop 9 = (b.serialize u2).drop 9
        ∧ (b.serialize u1).length = (b.serialize u2).length := by
  refine ⟨by rw [hsame], fun u1 u2 => ⟨?_, ?_, ?_⟩⟩
  · rw [serialize_take_five, serialize_take_five]
  · rw [serialize_drop_nine, serialize_drop_nine]
  · rw [serialize_split, serialize_split]
    simp [u32be]

/-- C5 witness: determinism at second 0 and timestamp-only variation between
seconds 0 and 1, for the empty container. -/
theorem serialize_deterministic_mod_time_witness :
    Bytecode.new.serialize 0 = Bytecode.new.serialize 0
    ∧ (Bytecode.new.serialize 0).drop 9 = (Bytecode.new.serialize 1).drop 9 := by
  have h := serialize_deterministic_mod_time Bytecode.new 0 0 rfl
  exact ⟨h.1, (h.2 0 1).2.1⟩

/-- C6: a chunk contributes `reference.length` as 16-bit big-endian, then its
16-bit reference entries, then a 16-bit prefix equal to the byte length (not
the instruction count) of its concatenated instruction encodings, then those
encodings; a chunk with two `Tuple(1)` instructions has length prefix 6. -/
theorem chunk_encoding_spec (c : Chunk)
    (h : (c.instructions.flatMap OpCode.serialize).length < 65536) :
    chunkBody c =
      u16be c.reference.length ++ c.reference.flatMap u16be
        ++ [(c.instructions.flatMap OpCode.serialize).length / 256,
            (c.instructions.flatMap OpCode.serialize).length % 256]
        ++ c.instructions.flatMap OpCode.serialize
    ∧ chunkBody { instructions := [OpCode.Tuple 1, OpCode.Tuple 1], reference := [] }
      = [0, 0, 0, 6, 7, 0, 1, 7, 0, 1] := by
  constructor
  · simp only [chunkBody, u16be]
    rw [Nat.mod_eq_of_lt
      (show (c.instructions.flatMap OpCode.serialize).length / 256 < 256 by omega)]
  · decide

/-- C6 witness: the two-`Tuple(1)` chunk, whose instruction bytes have
length 6 < 65536. -/
theorem chunk_encoding_spec_witness :
    chunkBody { instructions := [OpCode.Tuple 1, OpCode.Tuple 1], reference := [] }
      = [0, 0, 0, 6, 7, 0, 1, 7, 0, 1] :=
  (chunk_encoding_spec { instructions := [OpCode.Tuple 1, OpCode.Tuple 1], reference := [] }
    (by decide)).2

/-- C7: the constant pool is the pool length as a 16-bit big-endian count,
then per constant one discriminant byte (0=String, 1=Integer, 2=Single) and
the payload: Integer as 8 bytes big-endian two's complement, Single as the
8-byte big-endian IEEE-754 bit pattern, String as raw single-byte characters
plus a NUL terminator; `[Integer 42, Single 1.5]` yields discriminant 1 with
8-byte big-endian 42 then discriminant 2 with the bit pattern of 1.5
(`0x3FF8000000000000`). -/
theorem constant_pool_spec (b : Bytecode) (t : Nat) :
    b.serialize t =
      magicBytes ++ u32be t ++ symbolSection b.symbols
        ++ (u16be b.constants.length ++ b.constants.flatMap constBytes)
        ++ constructorSection b.constructors ++ chunkSection b.chunks
        ++ instructionSection b.instructions ++ matchSection
    ∧ (∀ i : Int, constBytes (Literal.Integer i) = 1 :: u64be (i % 2 ^ 64).toNat)
    ∧ (∀ bits : Nat, constBytes (Literal.Single bits) = 2 :: u64be bits)
    ∧ (∀ s : String, constBytes (Literal.String s) = 0 :: (s.data.map charByte ++ [0]))
    ∧ [Literal.Integer 42, Literal.Single 0x3FF8000000000000].flatMap constBytes
      = [1, 0, 0, 0, 0, 0, 0, 0, 42] ++ [2, 0x3F, 0xF8, 0, 0, 0, 0, 0, 0] := by
  refine ⟨?_, fun i => rfl, fun bits => rfl, fun s => rfl, by decide⟩
  rw [serialize_eq_sections]
  rfl

/-- C8: the symbol-table section is the symbol count as 16-bit big-endian
followed by each symbol's bytes each terminated by a single zero byte;
symbols `["x","foo"]` encode as count 2 then `x\0foo\0`. -/
theorem symbol_table_spec (b : Bytecode) (t : Nat) :
    b.serialize t =
      magicBytes ++ u32be t
        ++ (u16be b.symbols.length
            ++ b.symbols.flatMap (fun s => s.data.map charByte ++ [0]))
        ++ constantSection b.constants ++ constructorSection b.constructors
        ++ chunkSection b.chunks ++ instructionSection b.instructions ++ matchSection
    ∧ symbolSection ["x", "foo"] = [0, 2, 120, 0, 102, 111, 111, 0] := by
  refine ⟨?_, by decide⟩
  rw [serialize_eq_sections]
  rfl

/-- C9: the empty container serializes to the 5 magic bytes, the 4 timestamp
bytes, eight consecutive zero bytes (the four zero-valued 16-bit table
counts), and a zero-valued 16-bit top-level byte length — 19 bytes in all —
with only the timestamp bytes varying with the clock. -/
theorem empty_container_spec (t1 t2 : Nat) :
    Bytecode.new.serialize t1
      = magicBytes ++ u32be t1 ++ (List.replicate 8 0 ++ [0, 0])
    ∧ (Bytecode.new.serialize t1).length = 19
    ∧ (Bytecode.new.serialize t1).take 5 = (Bytecode.new.serialize t2).take 5
    ∧ (Bytecode.new.serialize t1).drop 9 = (Bytecode.new.serialize t2).drop 9 := by
  have hs : sectionsTail Bytecode.new = List.replicate 8 0 ++ [0, 0] := by decide
  refine ⟨?_, ?_, ?_, ?_⟩
  · rw [serialize_split, hs, List.append_assoc]
  · rw [serialize_split]
    have h5 : magicBytes.length = 5 := by decide
    simp [u32be, h5, hs]
  · rw [serialize_take_five, serialize_take_five]
  · rw [serialize_drop_nine, serialize_drop_nine]

/-- C10: serialization is not injective on containers — the containers with
symbol tables `["a\0","b"]` and `["a","\0b"]` (all other fields equal) are
distinct, yet serialize to byte-identical output at the same timestamp,
because an embedded NUL is indistinguishable from the terminator byte. -/
theorem serialize_noninjective_nul :
    nulContainerA ≠ nulContainerB
    ∧ nulContainerA.symbols ≠ nulContainerB.symbols
    ∧ nulContainerA.serialize 0 = nulContainerB.serialize 0 := by
  exact ⟨by decide, by decide, by decide⟩

end Orion
